import Mathlib

/-!
Verification of the Solana HTTP instruction-builder service
(`src/api/src/main.rs`).

The development shallowly embeds the request handlers of the service:
`generate_keypair`, `create_token`, `mint_token`, `sign_message`,
`verify_message`, `send_sol` and `send_token`.  Machine integers are
modelled as `Nat` (amounts are `u64`, constrained by `< 2 ^ 64` where it
matters); byte strings are `List Nat` with every element `< 256`;
fallible steps return `Option`/`Except`.  The external base-58 / base-64
codecs, the SPL-token / system-program instruction builders and the
Ed25519 engine are not part of `src/`; they are modelled from the spec
(each such definition carries a `Modelled from the spec:` comment).
-/

/-! ### Positional digit lists (little-endian) -/

/-- Value of a little-endian digit list in base `b`. -/
def ofDigitsLE (b : Nat) : List Nat → Nat
  | [] => 0
  | d :: ds => d + b * ofDigitsLE b ds

/-- Fuelled little-endian digit expansion of `n` in base `b`. -/
def toDigitsAux (b : Nat) : Nat → Nat → List Nat
  | 0, _ => []
  | fuel + 1, n => if n = 0 then [] else n % b :: toDigitsAux b fuel (n / b)

/-- Little-endian digits of `n` in base `b` (no leading zeros at the
most-significant end, i.e. no trailing zeros in the list). -/
def toDigitsLE (b n : Nat) : List Nat := toDigitsAux b n n

theorem toDigitsAux_zero (b fuel : Nat) : toDigitsAux b fuel 0 = [] := by
  cases fuel <;> simp [toDigitsAux]

theorem ofDigitsLE_toDigitsAux (b : Nat) (hb : 2 ≤ b) :
    ∀ fuel n, n ≤ fuel → ofDigitsLE b (toDigitsAux b fuel n) = n := by
  intro fuel
  induction fuel with
  | zero =>
    intro n hn
    have : n = 0 := Nat.le_zero.mp hn
    subst this
    simp [toDigitsAux, ofDigitsLE]
  | succ f ih =>
    intro n hn
    by_cases h : n = 0
    · subst h; simp [toDigitsAux, ofDigitsLE]
    · have hdiv : n / b < n := Nat.div_lt_self (Nat.pos_of_ne_zero h) (by omega)
      have : n / b ≤ f := by omega
      simp only [toDigitsAux, if_neg h, ofDigitsLE, ih _ this]
      exact Nat.mod_add_div n b

theorem toDigitsAux_lt (b : Nat) (hb : 2 ≤ b) :
    ∀ fuel n d, d ∈ toDigitsAux b fuel n → d < b := by
  intro fuel
  induction fuel with
  | zero => intro n d hd; simp [toDigitsAux] at hd
  | succ f ih =>
    intro n d hd
    by_cases h : n = 0
    · subst h; simp [toDigitsAux] at hd
    · simp only [toDigitsAux, if_neg h, List.mem_cons] at hd
      rcases hd with hd | hd
      · subst hd; exact Nat.mod_lt _ (by omega)
      · exact ih _ _ hd

theorem toDigitsAux_eq_nil (b : Nat) :
    ∀ fuel n, n ≤ fuel → (toDigitsAux b fuel n = [] ↔ n = 0) := by
  intro fuel n hn
  cases fuel with
  | zero => simp [toDigitsAux]; omega
  | succ f =>
    by_cases h : n = 0
    · subst h; simp [toDigitsAux]
    · simp [toDigitsAux, if_neg h, h]

theorem toDigitsAux_getLast? (b : Nat) (hb : 2 ≤ b) :
    ∀ fuel n, n ≤ fuel → (toDigitsAux b fuel n).getLast? ≠ some 0 := by
  intro fuel
  induction fuel with
  | zero => intro n hn; simp [toDigitsAux]
  | succ f ih =>
    intro n hn
    by_cases h : n = 0
    · subst h; simp [toDigitsAux]
    · simp only [toDigitsAux, if_neg h]
      have hdiv : n / b < n := Nat.div_lt_self (Nat.pos_of_ne_zero h) (by omega)
      have hle : n / b ≤ f := by omega
      rcases ht : toDigitsAux b f (n / b) with _ | ⟨x, xs⟩
      · have : n / b = 0 := (toDigitsAux_eq_nil b f (n / b) hle).mp ht
        have hnb : n < b := by
          rcases Nat.lt_or_ge n b with h' | h'
          · exact h'
          · exact absurd (Nat.le_antisymm (Nat.le_of_lt_succ
              (Nat.lt_succ_of_le (Nat.zero_le _))) (Nat.zero_le _))
              (by
                have := Nat.div_le_div_right (c := b) h'
                simp [Nat.div_self (show 0 < b by omega)] at this
                omega)
        simp [List.getLast?, Nat.mod_eq_of_lt hnb, h]
      · rw [← ht]
        have := ih (n / b) hle
        rw [ht] at this ⊢
        simpa [List.getLast?_cons_cons] using this

theorem ofDigitsLE_eq_zero (b : Nat) (hb : 2 ≤ b) :
    ∀ L : List Nat, L.getLast? ≠ some 0 → ofDigitsLE b L = 0 → L = [] := by
  intro L
  induction L with
  | nil => intro _ _; rfl
  | cons d ds ih =>
    intro hlast hval
    simp only [ofDigitsLE] at hval
    have hd : d = 0 := by omega
    have hds : ofDigitsLE b ds = 0 := by
      have hbw : b * ofDigitsLE b ds = 0 := by omega
      rcases Nat.mul_eq_zero.mp hbw with h | h
      · omega
      · exact h
    have hlast' : ds.getLast? ≠ some 0 := by
      rcases ds with _ | ⟨x, xs⟩
      · simp
      · simpa [List.getLast?_cons_cons] using hlast
    have := ih hlast' hds
    subst this
    subst hd
    simp [List.getLast?] at hlast

theorem toDigitsAux_ofDigitsLE (b : Nat) (hb : 2 ≤ b) :
    ∀ (L : List Nat) (fuel : Nat), (∀ d ∈ L, d < b) → L.getLast? ≠ some 0 →
      ofDigitsLE b L ≤ fuel → toDigitsAux b fuel (ofDigitsLE b L) = L := by
  intro L
  induction L with
  | nil => intro fuel _ _ _; simpa [ofDigitsLE] using toDigitsAux_zero b fuel
  | cons d ds ih =>
    intro fuel hlt hlast hfuel
    have hlast' : ds.getLast? ≠ some 0 := by
      rcases ds with _ | ⟨x, xs⟩
      · simp
      · simpa [List.getLast?_cons_cons] using hlast
    have hdlt : d < b := hlt d (List.mem_cons_self d ds)
    have hv : ofDigitsLE b (d :: ds) = d + b * ofDigitsLE b ds := rfl
    set w := ofDigitsLE b ds with hw
    have hvne : d + b * w ≠ 0 := by
      intro h0
      have hd0 : d = 0 := by omega
      have hw0 : w = 0 := by
        rcases Nat.mul_eq_zero.mp (by omega : b * w = 0) with h | h
        · omega
        · exact h
      have := ofDigitsLE_eq_zero b hb ds hlast' hw0
      subst this
      subst hd0
      simp [List.getLast?] at hlast
    rcases fuel with _ | f
    · rw [hv] at hfuel; omega
    · rw [hv] at hfuel ⊢
      simp only [toDigitsAux, if_neg hvne]
      have hmod : (d + b * w) % b = d := by
        rw [Nat.add_mul_mod_self_left]; exact Nat.mod_eq_of_lt hdlt
      have hdiv : (d + b * w) / b = w := by
        rw [Nat.add_mul_div_left _ _ (by omega : 0 < b), Nat.div_eq_of_lt hdlt]
        omega
      rw [hmod, hdiv]
      have hwf : w ≤ f := by
        by_cases hw0 : w = 0
        · omega
        · have : w < b * w := by
            have : 1 * w < b * w :=
              Nat.mul_lt_mul_of_lt_of_le (by omega) (Nat.le_refl w)
                (Nat.pos_of_ne_zero hw0)
            omega
          omega
      rw [ih f (fun x hx => hlt x (List.mem_cons_of_mem _ hx)) hlast' hwf]

theorem ofDigitsLE_toDigitsLE (b : Nat) (hb : 2 ≤ b) (n : Nat) :
    ofDigitsLE b (toDigitsLE b n) = n :=
  ofDigitsLE_toDigitsAux b hb n n (Nat.le_refl n)

theorem toDigitsLE_ofDigitsLE (b : Nat) (hb : 2 ≤ b) (L : List Nat)
    (hlt : ∀ d ∈ L, d < b) (hlast : L.getLast? ≠ some 0) :
    toDigitsLE b (ofDigitsLE b L) = L :=
  toDigitsAux_ofDigitsLE b hb L (ofDigitsLE b L) hlt hlast (Nat.le_refl _)

theorem toDigitsLE_lt (b : Nat) (hb : 2 ≤ b) (n : Nat) :
    ∀ d ∈ toDigitsLE b n, d < b :=
  fun d hd => toDigitsAux_lt b hb n n d hd

theorem toDigitsLE_getLast? (b : Nat) (hb : 2 ≤ b) (n : Nat) :
    (toDigitsLE b n).getLast? ≠ some 0 :=
  toDigitsAux_getLast? b hb n n (Nat.le_refl n)

theorem toDigitsLE_eq_nil (b n : Nat) : toDigitsLE b n = [] ↔ n = 0 :=
  toDigitsAux_eq_nil b n n (Nat.le_refl n)

theorem ofDigitsLE_replicate_zero (b z : Nat) :
    ofDigitsLE b (List.replicate z 0) = 0 := by
  induction z with
  | zero => rfl
  | succ z ih => simp [List.replicate, ofDigitsLE, ih]

theorem ofDigitsLE_append_zeros (b : Nat) (L : List Nat) (z : Nat) :
    ofDigitsLE b (L ++ List.replicate z 0) = ofDigitsLE b L := by
  induction L with
  | nil => simpa [ofDigitsLE] using ofDigitsLE_replicate_zero b z
  | cons d ds ih => simp [ofDigitsLE, ih]

/-! ### Big-endian base conversion preserving leading zeros

The base-58 textual codec used by the service treats a byte string as a
big-endian number, carrying each leading zero byte over as a leading
zero digit (the character for digit 0).  `convertLZ b₁ b₂` re-expresses
a big-endian digit list from base `b₁` in base `b₂` this way. -/

def convertLZ (b₁ b₂ : Nat) (l : List Nat) : List Nat :=
  let zeros := l.takeWhile (· == 0)
  let rest := l.dropWhile (· == 0)
  List.replicate zeros.length 0 ++ (toDigitsLE b₂ (ofDigitsLE b₁ rest.reverse)).reverse

theorem takeWhile_zeros_append (z : Nat) (t : List Nat) (ht : t.head? ≠ some 0) :
    (List.replicate z 0 ++ t).takeWhile (fun x : Nat => x == 0)
      = List.replicate z 0 := by
  induction z with
  | zero =>
    rcases t with _ | ⟨x, xs⟩
    · rfl
    · have hx0 : x ≠ 0 := by simpa using ht
      have hx : (x == 0) = false := beq_eq_false_iff_ne.mpr hx0
      simp [List.takeWhile_cons, hx]
  | succ z ih =>
    simpa [List.replicate_succ, List.takeWhile_cons] using ih

theorem dropWhile_zeros_append (z : Nat) (t : List Nat) (ht : t.head? ≠ some 0) :
    (List.replicate z 0 ++ t).dropWhile (fun x : Nat => x == 0) = t := by
  induction z with
  | zero =>
    rcases t with _ | ⟨x, xs⟩
    · rfl
    · have hx0 : x ≠ 0 := by simpa using ht
      have hx : (x == 0) = false := beq_eq_false_iff_ne.mpr hx0
      simp [List.dropWhile_cons, hx]
  | succ z ih =>
    simpa [List.replicate_succ, List.dropWhile_cons] using ih

theorem takeWhile_zeros_eq_replicate (l : List Nat) :
    l.takeWhile (fun x : Nat => x == 0)
      = List.replicate (l.takeWhile (fun x : Nat => x == 0)).length 0 := by
  apply List.eq_replicate_iff.mpr
  refine ⟨rfl, ?_⟩
  intro x hx
  have := List.mem_takeWhile_imp hx
  simpa using this

theorem head?_dropWhile_zeros (l : List Nat) :
    (l.dropWhile (fun x : Nat => x == 0)).head? ≠ some 0 := by
  have h := List.head?_dropWhile_not (fun x : Nat => x == 0) l
  intro hc
  rw [hc] at h
  simp at h

/-- Any byte list splits as leading zeros plus a remainder that does not
start with a zero. -/
theorem exists_zeros_split (l : List Nat) :
    ∃ z rest, rest.head? ≠ some 0 ∧ l = List.replicate z 0 ++ rest := by
  refine ⟨(l.takeWhile (fun x : Nat => x == 0)).length,
    l.dropWhile (fun x : Nat => x == 0), head?_dropWhile_zeros l, ?_⟩
  conv_lhs => rw [← List.takeWhile_append_dropWhile (p := fun x : Nat => x == 0) (l := l)]
  rw [← takeWhile_zeros_eq_replicate]

theorem convertLZ_replicate_zero (b₁ b₂ z : Nat) :
    convertLZ b₁ b₂ (List.replicate z 0) = List.replicate z 0 := by
  have h1 : (List.replicate z 0).takeWhile (fun x : Nat => x == 0)
      = List.replicate z 0 := by
    have h0 := takeWhile_zeros_append z [] (fun h => Option.noConfusion h)
    rwa [List.append_nil] at h0
  have h2 : (List.replicate z 0).dropWhile (fun x : Nat => x == 0) = [] := by
    have h0 := dropWhile_zeros_append z [] (fun h => Option.noConfusion h)
    rwa [List.append_nil] at h0
  have h3 : toDigitsLE b₂ (ofDigitsLE b₁ ([] : List Nat)) = [] := rfl
  simp [convertLZ, h1, h2, h3]

theorem convertLZ_zeros_append (b₁ b₂ z : Nat) (t : List Nat)
    (ht : t.head? ≠ some 0) :
    convertLZ b₁ b₂ (List.replicate z 0 ++ t)
      = List.replicate z 0
        ++ (toDigitsLE b₂ (ofDigitsLE b₁ t.reverse)).reverse := by
  simp only [convertLZ, takeWhile_zeros_append z t ht,
    dropWhile_zeros_append z t ht, List.length_replicate]

theorem convertLZ_lt (b₁ b₂ : Nat) (hb₂ : 2 ≤ b₂) (l : List Nat) :
    ∀ x ∈ convertLZ b₁ b₂ l, x < b₂ := by
  intro x hx
  simp only [convertLZ, List.mem_append] at hx
  rcases hx with hx | hx
  · have := List.eq_of_mem_replicate hx
    omega
  · exact toDigitsLE_lt b₂ hb₂ _ x (List.mem_reverse.mp hx)

theorem convertLZ_convertLZ (b₁ b₂ : Nat) (hb₁ : 2 ≤ b₁) (hb₂ : 2 ≤ b₂)
    (l : List Nat) (hl : ∀ x ∈ l, x < b₁) :
    convertLZ b₂ b₁ (convertLZ b₁ b₂ l) = l := by
  obtain ⟨z, rest, hhead, hsplit⟩ := exists_zeros_split l
  subst hsplit
  have hrestlt : ∀ x ∈ rest.reverse, x < b₁ := by
    intro x hx
    exact hl x (List.mem_append_right _ (List.mem_reverse.mp hx))
  have hrestlast : rest.reverse.getLast? ≠ some 0 := by
    rw [List.getLast?_reverse]; exact hhead
  rw [convertLZ_zeros_append b₁ b₂ z rest hhead]
  rcases hD : toDigitsLE b₂ (ofDigitsLE b₁ rest.reverse) with _ | ⟨d, ds⟩
  · -- numeric part is zero, hence `rest` is empty
    have hn0 : ofDigitsLE b₁ rest.reverse = 0 :=
      (toDigitsLE_eq_nil b₂ _).mp hD
    have hrev : rest.reverse = [] :=
      ofDigitsLE_eq_zero b₁ hb₁ rest.reverse hrestlast hn0
    have hrest : rest = [] := by simpa using congrArg List.reverse hrev
    subst hrest
    simp [convertLZ_replicate_zero]
  · -- numeric part is nonzero: its most significant digit is nonzero
    rw [← hD]
    have hheadD : ((toDigitsLE b₂ (ofDigitsLE b₁ rest.reverse)).reverse).head?
        ≠ some 0 := by
      rw [List.head?_reverse]
      exact toDigitsLE_getLast? b₂ hb₂ _
    rw [convertLZ_zeros_append b₂ b₁ z _ hheadD]
    rw [List.reverse_reverse, ofDigitsLE_toDigitsLE b₂ hb₂,
      toDigitsLE_ofDigitsLE b₁ hb₁ rest.reverse hrestlt hrestlast,
      List.reverse_reverse]

/-! ### Base-58 codec

Modelled from the spec: the external base-58 crate used for secret keys
and for public-key text (the ledger's canonical alphabet).  A byte string
is read as a big-endian number; each leading zero byte becomes a leading
digit-zero character. -/

def b58Alphabet : List Char :=
  "123456789ABCDEFGHJKLMNPQRSTUVWXYZabcdefghijkmnopqrstuvwxyz".toList

def b58Char (d : Nat) : Char := b58Alphabet.getD d '1'

def b58CharVal (c : Char) : Option Nat := b58Alphabet.findIdx? (· == c)

/-- Modelled from the spec: base-58 encoding of a byte string. -/
def base58Encode (bs : List Nat) : String := ⟨(convertLZ 256 58 bs).map b58Char⟩

/-- Modelled from the spec: base-58 decoding; fails on any character
outside the alphabet. -/
def mapOption {α β : Type} (f : α → Option β) : List α → Option (List β)
  | [] => some []
  | a :: l =>
    match f a, mapOption f l with
    | some b, some bs => some (b :: bs)
    | _, _ => none

def base58Decode (s : String) : Option (List Nat) :=
  (mapOption b58CharVal s.data).map (convertLZ 58 256)

theorem b58CharVal_b58Char : ∀ d, d < 58 → b58CharVal (b58Char d) = some d := by
  decide

theorem mapOption_b58CharVal_map (ds : List Nat) (h : ∀ d ∈ ds, d < 58) :
    mapOption b58CharVal (ds.map b58Char) = some ds := by
  induction ds with
  | nil => rfl
  | cons d ds ih =>
    have hd : d < 58 := h d (List.mem_cons_self d ds)
    have hds := ih (fun x hx => h x (List.mem_cons_of_mem _ hx))
    simp [mapOption, b58CharVal_b58Char d hd, hds]

/-- Decoding inverts encoding on genuine byte strings. -/
theorem base58Decode_base58Encode (bs : List Nat) (h : ∀ x ∈ bs, x < 256) :
    base58Decode (base58Encode bs) = some bs := by
  have hlt : ∀ x ∈ convertLZ 256 58 bs, x < 58 :=
    convertLZ_lt 256 58 (by omega) bs
  simp only [base58Encode, base58Decode]
  rw [mapOption_b58CharVal_map _ hlt]
  show some (convertLZ 58 256 (convertLZ 256 58 bs)) = some bs
  rw [convertLZ_convertLZ 256 58 (by omega) (by omega) bs h]

theorem base58Decode_empty : base58Decode "" = some [] := rfl

theorem base58Encode_eq_empty (bs : List Nat) (h : ∀ x ∈ bs, x < 256)
    (he : base58Encode bs = "") : bs = [] := by
  have h1 := base58Decode_base58Encode bs h
  rw [he, base58Decode_empty] at h1
  simpa using h1.symm

/-! ### Base-64 codec

Modelled from the spec: the standard base-64 engine (alphabet `A-Za-z0-9+/`
with `=` padding) used for signatures and for `instruction_data`. -/

def b64Alphabet : List Char :=
  "ABCDEFGHIJKLMNOPQRSTUVWXYZabcdefghijklmnopqrstuvwxyz0123456789+/".toList

def b64Char (d : Nat) : Char := b64Alphabet.getD d 'A'

def b64CharVal (c : Char) : Option Nat := b64Alphabet.findIdx? (· == c)

/-- Modelled from the spec: standard base-64 encoding, three input bytes
per four output characters, padded with `=`. -/
def b64EncodeChunks : List Nat → List Char
  | [] => []
  | [b1] => [b64Char (b1 / 4), b64Char (b1 % 4 * 16), '=', '=']
  | [b1, b2] =>
    [b64Char (b1 / 4), b64Char (b1 % 4 * 16 + b2 / 16), b64Char (b2 % 16 * 4), '=']
  | b1 :: b2 :: b3 :: rest =>
    b64Char (b1 / 4) :: b64Char (b1 % 4 * 16 + b2 / 16)
      :: b64Char (b2 % 16 * 4 + b3 / 64) :: b64Char (b3 % 64)
      :: b64EncodeChunks rest

def base64Encode (bs : List Nat) : String := ⟨b64EncodeChunks bs⟩

/-- Modelled from the spec: standard base-64 decoding.  The length must
be a multiple of four, `=` may appear only as final padding, and the
trailing bits of the last group must be zero (the canonicality check the
standard engine performs). -/
def b64DecodeChunks : List Char → Option (List Nat)
  | [] => some []
  | c1 :: c2 :: c3 :: c4 :: rest =>
    match b64CharVal c1, b64CharVal c2 with
    | some d1, some d2 =>
      if c3 = '=' then
        if c4 = '=' ∧ rest = [] ∧ d2 % 16 = 0 then some [d1 * 4 + d2 / 16]
        else none
      else
        match b64CharVal c3 with
        | some d3 =>
          if c4 = '=' then
            if rest = [] ∧ d3 % 4 = 0 then
              some [d1 * 4 + d2 / 16, d2 % 16 * 16 + d3 / 4]
            else none
          else
            match b64CharVal c4 with
            | some d4 =>
              (b64DecodeChunks rest).map
                (fun tl => (d1 * 4 + d2 / 16) :: (d2 % 16 * 16 + d3 / 4)
                  :: (d3 % 4 * 64 + d4) :: tl)
            | none => none
        | none => none
    | _, _ => none
  | _ => none

def base64Decode (s : String) : Option (List Nat) := b64DecodeChunks s.data

theorem b64CharVal_b64Char : ∀ d, d < 64 → b64CharVal (b64Char d) = some d := by
  decide

theorem b64Char_ne_pad : ∀ d, d < 64 → b64Char d ≠ '=' := by
  decide

theorem b64DecodeChunks_b64EncodeChunks :
    ∀ bs : List Nat, (∀ x ∈ bs, x < 256) →
      b64DecodeChunks (b64EncodeChunks bs) = some bs := by
  intro bs
  induction bs using b64EncodeChunks.induct with
  | case1 => intro _; rfl
  | case2 b1 =>
    intro h
    have hb1 : b1 < 256 := h b1 (by simp)
    have h1 : b1 / 4 < 64 := by omega
    have h2 : b1 % 4 * 16 < 64 := by omega
    simp [b64EncodeChunks, b64DecodeChunks, b64CharVal_b64Char _ h1,
      b64CharVal_b64Char _ h2, b64Char_ne_pad _ h2]
    omega
  | case3 b1 b2 =>
    intro h
    have hb1 : b1 < 256 := h b1 (by simp)
    have hb2 : b2 < 256 := h b2 (by simp)
    have h1 : b1 / 4 < 64 := by omega
    have h2 : b1 % 4 * 16 + b2 / 16 < 64 := by omega
    have h3 : b2 % 16 * 4 < 64 := by omega
    simp [b64EncodeChunks, b64DecodeChunks, b64CharVal_b64Char _ h1,
      b64CharVal_b64Char _ h2, b64CharVal_b64Char _ h3, b64Char_ne_pad _ h3]
    omega
  | case4 b1 b2 b3 rest ih =>
    intro h
    have hb1 : b1 < 256 := h b1 (by simp)
    have hb2 : b2 < 256 := h b2 (by simp)
    have hb3 : b3 < 256 := h b3 (by simp)
    have hrest : ∀ x ∈ rest, x < 256 := fun x hx => h x (by simp [hx])
    have h1 : b1 / 4 < 64 := by omega
    have h2 : b1 % 4 * 16 + b2 / 16 < 64 := by omega
    have h3 : b2 % 16 * 4 + b3 / 64 < 64 := by omega
    have h4 : b3 % 64 < 64 := by omega
    simp [b64EncodeChunks, b64DecodeChunks, b64CharVal_b64Char _ h1,
      b64CharVal_b64Char _ h2, b64CharVal_b64Char _ h3, b64CharVal_b64Char _ h4,
      b64Char_ne_pad _ h3, b64Char_ne_pad _ h4, ih hrest]
    omega

theorem base64Decode_base64Encode (bs : List Nat) (h : ∀ x ∈ bs, x < 256) :
    base64Decode (base64Encode bs) = some bs :=
  b64DecodeChunks_b64EncodeChunks bs h

theorem base64Decode_empty : base64Decode "" = some [] := rfl

theorem base64Encode_eq_empty (bs : List Nat) (h : ∀ x ∈ bs, x < 256)
    (he : base64Encode bs = "") : bs = [] := by
  have h1 := base64Decode_base64Encode bs h
  rw [he, base64Decode_empty] at h1
  simpa using h1.symm

/-! ### Fixed-width little-endian integers -/

/-- `k` little-endian bytes of `n` (the layout used by instruction
payloads: amounts are eight little-endian bytes). -/
def leBytes : Nat → Nat → List Nat
  | 0, _ => []
  | k + 1, n => n % 256 :: leBytes k (n / 256)

theorem leBytes_length : ∀ k n, (leBytes k n).length = k := by
  intro k
  induction k with
  | zero => intro n; rfl
  | succ k ih => intro n; simp [leBytes, ih]

theorem leBytes_lt : ∀ k n, ∀ x ∈ leBytes k n, x < 256 := by
  intro k
  induction k with
  | zero => intro n x hx; simp [leBytes] at hx
  | succ k ih =>
    intro n x hx
    simp only [leBytes, List.mem_cons] at hx
    rcases hx with hx | hx
    · subst hx; exact Nat.mod_lt _ (by omega)
    · exact ih _ x hx

theorem ofDigitsLE_leBytes : ∀ k n, ofDigitsLE 256 (leBytes k n) = n % 256 ^ k := by
  intro k
  induction k with
  | zero => intro n; simp [leBytes, ofDigitsLE, Nat.mod_one]
  | succ k ih =>
    intro n
    rw [leBytes, ofDigitsLE, ih, pow_succ, mul_comm (256 ^ k) 256, Nat.mod_mul]

theorem ofDigitsLE_leBytes_of_lt (k n : Nat) (h : n < 256 ^ k) :
    ofDigitsLE 256 (leBytes k n) = n := by
  rw [ofDigitsLE_leBytes, Nat.mod_eq_of_lt h]

/-! ### Core data model (mirrors the Rust `solana_sdk` types used) -/

/-- `solana_sdk::instruction::AccountMeta`: an account reference with
signer/writable flags. -/
structure AccountMeta where
  pubkey : List Nat
  is_signer : Bool
  is_writable : Bool
deriving DecidableEq

/-- `solana_sdk::instruction::Instruction`: program id, ordered account
list, opaque payload bytes. -/
structure Instruction where
  program_id : List Nat
  accounts : List AccountMeta
  data : List Nat
deriving DecidableEq

/-- `spl_token::id()`, the SPL token program address. -/
def splTokenId : List Nat :=
  (base58Decode "TokenkegQfeZyiNwAJbNbGKPFXCWuBvf9Ss623VQ5DA").getD []

/-- The system program address (32 zero bytes). -/
def systemProgramId : List Nat := List.replicate 32 0

/-- `sysvar::rent::id()`, the rent sysvar address. -/
def sysvarRentId : List Nat :=
  (base58Decode "SysvarRent111111111111111111111111111111111").getD []

/-- Modelled from the spec (§4.1): `Pubkey::from_str` — base-58 decode,
then require exactly 32 bytes; any failure is an invalid key. -/
def pubkeyFromStr (s : String) : Option (List Nat) :=
  match base58Decode s with
  | some bs => if bs.length = 32 then some bs else none
  | none => none

/-! ### Instruction builders

Modelled from the spec (§4.3): the four pure builders the handlers call
(`spl_token::instruction::initialize_mint`, `mint_to`, `transfer`, and
`system_instruction::transfer`), which live in external crates.  Account
order, flags and payload layout follow the spec's description of each
builder. -/

/-- Modelled from the spec: initialize-mint builder.  Payload is the
discriminator tag `0`, the decimals byte, the 32 authority bytes, and a
`0` "no freeze authority" flag; accounts are the mint (writable) and the
rent sysvar (read-only). -/
def initialize_mint (token_program_id mint mint_authority : List Nat)
    (decimals : Nat) : Except String Instruction :=
  if token_program_id = splTokenId then
    .ok { program_id := token_program_id,
          accounts := [⟨mint, false, true⟩, ⟨sysvarRentId, false, false⟩],
          data := 0 :: decimals :: (mint_authority ++ [0]) }
  else .error "IncorrectProgramId"

/-- Modelled from the spec: mint-to builder.  Payload is discriminator
`7` plus the amount as eight little-endian bytes; accounts are mint
(writable), destination (writable), authority (read-only signer). -/
def mint_to (token_program_id mint destination authority : List Nat)
    (amount : Nat) : Except String Instruction :=
  if token_program_id = splTokenId then
    .ok { program_id := token_program_id,
          accounts := [⟨mint, false, true⟩, ⟨destination, false, true⟩,
            ⟨authority, true, false⟩],
          data := 7 :: leBytes 8 amount }
  else .error "IncorrectProgramId"

/-- Modelled from the spec: token-transfer builder.  Payload is
discriminator `3` plus the amount as eight little-endian bytes; accounts
are source (writable), destination (writable), owner (read-only
signer). -/
def spl_transfer (token_program_id source destination owner : List Nat)
    (amount : Nat) : Except String Instruction :=
  if token_program_id = splTokenId then
    .ok { program_id := token_program_id,
          accounts := [⟨source, false, true⟩, ⟨destination, false, true⟩,
            ⟨owner, true, false⟩],
          data := 3 :: leBytes 8 amount }
  else .error "IncorrectProgramId"

/-- Modelled from the spec: native transfer builder.  Accounts are from
(signer, writable) and to (writable); payload is the 4-byte
little-endian variant tag `2` plus the lamports as eight little-endian
bytes. -/
def system_transfer (fromKey toKey : List Nat) (lamports : Nat) : Instruction :=
  { program_id := systemProgramId,
    accounts := [⟨fromKey, true, true⟩, ⟨toKey, false, true⟩],
    data := leBytes 4 2 ++ leBytes 8 lamports }

/-! ### Key & signature engine

Modelled from the spec (§4.2): the external Ed25519 engine
(key generation, `sign_message`, `Signature::verify`) is not part of
`src/`; it is abstracted as a structure whose propositional fields state
exactly the contract the spec assigns to it.  `derivePub` maps a 32-byte
secret seed to the 32-byte public key; a keypair's byte form is
`secret ++ public`. -/

structure SigScheme where
  derivePub : List Nat → List Nat
  isValidPub : List Nat → Bool
  sign : List Nat → List Nat → List Nat → List Nat
  verify : List Nat → List Nat → List Nat → Bool
  derivePub_length : ∀ s, (derivePub s).length = 32
  derivePub_lt : ∀ s, ∀ x ∈ derivePub s, x < 256
  derivePub_valid : ∀ s, isValidPub (derivePub s) = true
  sign_length : ∀ sec pub msg, (sign sec pub msg).length = 64
  sign_lt : ∀ sec pub msg, ∀ x ∈ sign sec pub msg, x < 256
  verify_sign : ∀ seed msg,
    verify (derivePub seed) msg (sign seed (derivePub seed) msg) = true

/-- A concrete (non-cryptographic) instance of the engine contract, used
to evaluate the handlers on closed inputs. -/
def dummyScheme : SigScheme where
  derivePub _ := List.replicate 32 0
  isValidPub _ := true
  sign _ _ _ := List.replicate 64 0
  verify pk _ sig := sig == pk ++ pk
  derivePub_length _ := by simp
  derivePub_lt _ := by
    intro x hx
    have := List.eq_of_mem_replicate hx
    omega
  derivePub_valid _ := rfl
  sign_length _ _ _ := by simp
  sign_lt _ _ _ := by
    intro x hx
    have := List.eq_of_mem_replicate hx
    omega
  verify_sign _ _ := by
    show (List.replicate 64 0 == List.replicate 32 0 ++ List.replicate 32 0) = true
    decide

/-- `Keypair::from_bytes`: requires 64 bytes — the first 32 are the
secret seed, the last 32 the public key, which must decompress to a valid
point. -/
def keypairFromBytes (S : SigScheme) (bytes : List Nat) :
    Option (List Nat × List Nat) :=
  if bytes.length = 64 ∧ S.isValidPub (bytes.drop 32) then
    some (bytes.take 32, bytes.drop 32)
  else none

/-- UTF-8 bytes of a code point (the `str::as_bytes` view of a message). -/
def utf8EncodeCharNat (c : Nat) : List Nat :=
  if c < 128 then [c]
  else if c < 2048 then [192 + c / 64, 128 + c % 64]
  else if c < 65536 then [224 + c / 4096, 128 + c / 64 % 64, 128 + c % 64]
  else [240 + c / 262144, 128 + c / 4096 % 64, 128 + c / 64 % 64, 128 + c % 64]

/-- `String::as_bytes`: UTF-8 bytes of a message string. -/
def strBytes (s : String) : List Nat :=
  s.data.foldr (fun c acc => utf8EncodeCharNat c.toNat ++ acc) []

/-! ### Request and response shapes (mirror the serde structs) -/

structure KeypairResponse where
  pubkey : String
  secret : String
deriving DecidableEq

structure CreateTokenRequest where
  mintAuthority : String
  mint : String
  decimals : Nat
deriving DecidableEq

structure MintTokenRequest where
  mint : String
  destination : String
  authority : String
  amount : Nat
deriving DecidableEq

structure SignMessageRequest where
  message : String
  secret : String
deriving DecidableEq

structure VerifyMessageRequest where
  message : String
  signature : String
  pubkey : String
deriving DecidableEq

/-- `SendSolRequest`; the Rust fields are named `from` and `to`. -/
structure SendSolRequest where
  fromKey : String
  toKey : String
  lamports : Nat
deriving DecidableEq

structure SendTokenRequest where
  destination : String
  mint : String
  owner : String
  amount : Nat
deriving DecidableEq

/-- `AccountMetaCamel`: serialized account meta with camel-case flags;
`isWritable` is omitted (`none`) by the send-token endpoint. -/
structure AccountMetaCamel where
  pubkey : String
  isSigner : Bool
  isWritable : Option Bool
deriving DecidableEq

/-- One value of the `/token/create` accounts object: the serialized
fields of one account meta. -/
structure JsonAccountEntry where
  pubkey : String
  isSigner : Bool
  isWritable : Bool
deriving DecidableEq

structure InstructionResponseCreateToken where
  program_id : String
  accounts : List (String × JsonAccountEntry)
  instruction_data : String
deriving DecidableEq

structure InstructionResponseMintToken where
  program_id : String
  accounts : List AccountMetaCamel
  instruction_data : String
deriving DecidableEq

structure InstructionResponseSendSol where
  program_id : String
  accounts : List String
  instruction_data : String
deriving DecidableEq

structure InstructionResponseSendToken where
  program_id : String
  accounts : List AccountMetaCamel
  instruction_data : String
deriving DecidableEq

structure SignMessageResponse where
  signature : String
  public_key : String
  message : String
deriving DecidableEq

structure VerifyMessageResponse where
  valid : Bool
  message : String
  pubkey : String
deriving DecidableEq

/-- Outcome of one handler call: the success envelope
(`{success:true, data}` with HTTP 200), the error envelope
(`{success:false, error}` with HTTP 400), or a crash (a Rust panic —
never an HTTP response at all). -/
inductive HResult (α : Type) where
  | success : α → HResult α
  | failure : String → HResult α
  | crashed : HResult α
deriving DecidableEq

def HResult.isSuccess {α : Type} : HResult α → Bool
  | .success _ => true
  | _ => false

def HResult.isFailure {α : Type} : HResult α → Bool
  | .failure _ => true
  | _ => false

/-- `serde_json::Map::insert`: inserting under an existing key replaces
the stored value, so equal-pubkey accounts collapse to one entry. -/
def mapInsert (m : List (String × JsonAccountEntry)) (k : String)
    (v : JsonAccountEntry) : List (String × JsonAccountEntry) :=
  if m.any (fun p => p.1 == k) then
    m.map (fun p => if p.1 == k then (k, v) else p)
  else m ++ [(k, v)]

/-- The `/token/create` handler's accounts object: one JSON key per
account pubkey string. -/
def accountsToMap (metas : List AccountMeta) : List (String × JsonAccountEntry) :=
  metas.foldl
    (fun m meta => mapInsert m (base58Encode meta.pubkey)
      ⟨base58Encode meta.pubkey, meta.is_signer, meta.is_writable⟩) []

/-! ### The handlers (`src/api/src/main.rs`) -/

/-- `generate_keypair`: `Keypair::new` draws a fresh random seed; the
response returns the base-58 public key and the base-58 64-byte
`to_bytes` form (secret seed followed by public key). -/
def generate_keypair (secret pub : List Nat) : HResult KeypairResponse :=
  .success { pubkey := base58Encode pub,
             secret := base58Encode (secret ++ pub) }

/-- `create_token` (`POST /token/create`). -/
def create_token (req : CreateTokenRequest) : HResult InstructionResponseCreateToken :=
  match pubkeyFromStr req.mintAuthority, pubkeyFromStr req.mint with
  | some mint_authority, some mint =>
    match initialize_mint splTokenId mint mint_authority req.decimals with
    | .ok ix =>
      .success { program_id := base58Encode ix.program_id,
                 accounts := accountsToMap ix.accounts,
                 instruction_data := base64Encode ix.data }
    | .error e => .failure ("Failed to create instruction: " ++ e)
  | _, _ => .failure "Invalid public key(s)"

/-- `mint_token` (`POST /token/mint`).  Note: there is no zero-amount
check in this handler. -/
def mint_token (req : MintTokenRequest) : HResult InstructionResponseMintToken :=
  match pubkeyFromStr req.mint, pubkeyFromStr req.destination,
      pubkeyFromStr req.authority with
  | some mint, some destination, some authority =>
    match mint_to splTokenId mint destination authority req.amount with
    | .ok ix =>
      .success { program_id := base58Encode ix.program_id,
                 accounts := ix.accounts.map
                   (fun m => ⟨base58Encode m.pubkey, m.is_signer, some m.is_writable⟩),
                 instruction_data := base64Encode ix.data }
    | .error e => .failure ("Failed to create instruction: " ++ e)
  | _, _, _ => .failure "Invalid public key(s)"

/-- `sign_message` (`POST /message/sign`). -/
def sign_message (S : SigScheme) (req : SignMessageRequest) :
    HResult SignMessageResponse :=
  if req.message = "" ∨ req.secret = "" then .failure "Missing required fields"
  else
    match base58Decode req.secret with
    | some bytes =>
      match keypairFromBytes S bytes with
      | some kp =>
        .success { signature := base64Encode (S.sign kp.1 kp.2 (strBytes req.message)),
                   public_key := base58Encode kp.2,
                   message := req.message }
      | none => .failure "Invalid secret key"
    | none => .failure "Invalid secret key"

/-- `verify_message` (`POST /message/verify`).  `Signature::new` panics
when the decoded signature is not exactly 64 bytes — that path is the
`crashed` outcome. -/
def verify_message (S : SigScheme) (req : VerifyMessageRequest) :
    HResult VerifyMessageResponse :=
  if req.message = "" ∨ req.signature = "" ∨ req.pubkey = "" then
    .failure "Missing required fields"
  else
    match pubkeyFromStr req.pubkey, base64Decode req.signature with
    | some pk, some sigBytes =>
      if sigBytes.length = 64 then
        .success { valid := S.verify pk (strBytes req.message) sigBytes,
                   message := req.message, pubkey := req.pubkey }
      else .crashed
    | _, _ => .failure "Invalid signature or public key"

/-- `send_sol` (`POST /send/sol`).  The response lists only the account
pubkey strings. -/
def send_sol (req : SendSolRequest) : HResult InstructionResponseSendSol :=
  match pubkeyFromStr req.fromKey, pubkeyFromStr req.toKey with
  | some f, some t =>
    if req.lamports = 0 then .failure "Amount must be greater than zero"
    else
      let ix := system_transfer f t req.lamports
      .success { program_id := base58Encode ix.program_id,
                 accounts := ix.accounts.map (fun m => base58Encode m.pubkey),
                 instruction_data := base64Encode ix.data }
  | _, _ => .failure "Invalid public key(s)"

/-- `send_token` (`POST /send/token`).  The handler passes the parsed
destination as both the source and the destination token account; the
parsed mint is validated but unused; `isWritable` is omitted from the
serialized account metas. -/
def send_token (req : SendTokenRequest) : HResult InstructionResponseSendToken :=
  match pubkeyFromStr req.destination, pubkeyFromStr req.mint,
      pubkeyFromStr req.owner with
  | some destination, some _, some owner =>
    if req.amount = 0 then .failure "Amount must be greater than zero"
    else
      match spl_transfer splTokenId destination destination owner req.amount with
      | .ok ix =>
        .success { program_id := base58Encode ix.program_id,
                   accounts := ix.accounts.map
                     (fun m => ⟨base58Encode m.pubkey, m.is_signer, none⟩),
                   instruction_data := base64Encode ix.data }
      | .error e => .failure ("Failed to create instruction: " ++ e)
  | _, _, _ => .failure "Invalid public key(s)"

/-! ### Helper lemmas about the codecs and keys -/

theorem pubkeyFromStr_base58Encode (pk : List Nat) (hlen : pk.length = 32)
    (hlt : ∀ x ∈ pk, x < 256) : pubkeyFromStr (base58Encode pk) = some pk := by
  simp [pubkeyFromStr, base58Decode_base58Encode pk hlt, hlen]

theorem pubkeyFromStr_empty : pubkeyFromStr "" = none := rfl

theorem base58Encode_ne_empty (bs : List Nat) (h : ∀ x ∈ bs, x < 256)
    (hne : bs ≠ []) : base58Encode bs ≠ "" :=
  fun he => hne (base58Encode_eq_empty bs h he)

theorem base64Encode_ne_empty (bs : List Nat) (h : ∀ x ∈ bs, x < 256)
    (hne : bs ≠ []) : base64Encode bs ≠ "" :=
  fun he => hne (base64Encode_eq_empty bs h he)

/-! ### Claims -/

/-- C1: the spec requires that a verify request whose signature field is
decodable base-64 of a length other than 64 bytes is rejected as a parse
error (error envelope) and never raises.  The code instead passes the
decoded bytes straight to `Signature::new`, which panics on any slice
that is not exactly 64 bytes: evaluated at a request whose signature
decodes to 3 bytes, the handler crashes instead of returning an error
envelope. -/
theorem c1_verify_crashes_on_short_signature :
    base64Decode "AAAA" = some [0, 0, 0]
    ∧ verify_message dummyScheme
        { message := "hi", signature := "AAAA",
          pubkey := "11111111111111111111111111111111" } = .crashed := by
  decide

/-- C2 counterexample: the claim says `/token/mint` rejects a zero
amount, but the handler has no zero-amount check: with valid identifiers
and amount 0 it returns a success envelope. -/
theorem c2_mint_token_accepts_zero_amount :
    (mint_token
      { mint := "11111111111111111111111111111111",
        destination := "SysvarRent111111111111111111111111111111111",
        authority := "TokenkegQfeZyiNwAJbNbGKPFXCWuBvf9Ss623VQ5DA",
        amount := 0 }).isSuccess = true := by
  decide

/-- C2 (amended): `/send/sol` and `/send/token` reject a zero amount
with an error envelope; `/token/mint` accepts a zero amount and returns
a success envelope. -/
theorem c2_zero_amount_behavior
    (sreq : SendSolRequest) (treq : SendTokenRequest) (mreq : MintTokenRequest)
    (hs1 : (pubkeyFromStr sreq.fromKey).isSome = true)
    (hs2 : (pubkeyFromStr sreq.toKey).isSome = true)
    (hs0 : sreq.lamports = 0)
    (ht1 : (pubkeyFromStr treq.destination).isSome = true)
    (ht2 : (pubkeyFromStr treq.mint).isSome = true)
    (ht3 : (pubkeyFromStr treq.owner).isSome = true)
    (ht0 : treq.amount = 0)
    (hm1 : (pubkeyFromStr mreq.mint).isSome = true)
    (hm2 : (pubkeyFromStr mreq.destination).isSome = true)
    (hm3 : (pubkeyFromStr mreq.authority).isSome = true)
    (hm0 : mreq.amount = 0) :
    (send_sol sreq).isFailure = true
    ∧ (send_token treq).isFailure = true
    ∧ (mint_token mreq).isSuccess = true := by
  obtain ⟨f, hf⟩ := Option.isSome_iff_exists.mp hs1
  obtain ⟨t, ht⟩ := Option.isSome_iff_exists.mp hs2
  obtain ⟨td, htd⟩ := Option.isSome_iff_exists.mp ht1
  obtain ⟨tm, htm⟩ := Option.isSome_iff_exists.mp ht2
  obtain ⟨tw, htw⟩ := Option.isSome_iff_exists.mp ht3
  obtain ⟨mm, hmm⟩ := Option.isSome_iff_exists.mp hm1
  obtain ⟨md, hmd⟩ := Option.isSome_iff_exists.mp hm2
  obtain ⟨ma, hma⟩ := Option.isSome_iff_exists.mp hm3
  refine ⟨?_, ?_, ?_⟩
  · simp [send_sol, hf, ht, hs0, HResult.isFailure]
  · simp [send_token, htd, htm, htw, ht0, HResult.isFailure]
  · simp [mint_token, hmm, hmd, hma, hm0, mint_to, HResult.isSuccess]

/-- C2 amended-claim witness at concrete requests. -/
theorem c2_zero_amount_behavior_witness :
    (send_sol
      { fromKey := "11111111111111111111111111111111",
        toKey := "SysvarRent111111111111111111111111111111111",
        lamports := 0 }).isFailure = true
    ∧ (send_token
      { destination := "11111111111111111111111111111111",
        mint := "SysvarRent111111111111111111111111111111111",
        owner := "TokenkegQfeZyiNwAJbNbGKPFXCWuBvf9Ss623VQ5DA",
        amount := 0 }).isFailure = true
    ∧ (mint_token
      { mint := "SysvarRent111111111111111111111111111111111",
        destination := "TokenkegQfeZyiNwAJbNbGKPFXCWuBvf9Ss623VQ5DA",
        authority := "11111111111111111111111111111111",
        amount := 0 }).isSuccess = true :=
  c2_zero_amount_behavior _ _ _ (by decide) (by decide) rfl (by decide) (by decide)
    (by decide) rfl (by decide) (by decide) (by decide) rfl

/-- C3 counterexample: with an empty message field, a well-formed pubkey
and a 64-byte decodable non-matching signature, the handler returns the
"Missing required fields" error envelope, not the `valid:false` success
envelope the claim requires for every request whose signature and pubkey
decode. -/
theorem c3_empty_message_not_valid_false :
    pubkeyFromStr "11111111111111111111111111111111" = some (List.replicate 32 0)
    ∧ base64Decode (base64Encode (List.replicate 64 1)) = some (List.replicate 64 1)
    ∧ (List.replicate 64 1).length = 64
    ∧ dummyScheme.verify (List.replicate 32 0) (strBytes "") (List.replicate 64 1)
        = false
    ∧ verify_message dummyScheme
        { message := "", signature := base64Encode (List.replicate 64 1),
          pubkey := "11111111111111111111111111111111" }
        = .failure "Missing required fields" := by
  decide

/-- C3 (amended): for every request with a nonempty message whose pubkey
parses and whose signature decodes to 64 bytes but does not verify, the
handler returns the success envelope with `valid := false`; whenever the
pubkey or the signature text fails to decode, it returns an error
envelope, never a success envelope. -/
theorem c3_verify_distinguishes_failure_modes :
    (∀ (S : SigScheme) (req : VerifyMessageRequest) (pk sig : List Nat),
      req.message ≠ "" →
      pubkeyFromStr req.pubkey = some pk →
      base64Decode req.signature = some sig →
      sig.length = 64 →
      S.verify pk (strBytes req.message) sig = false →
      verify_message S req
        = .success { valid := false, message := req.message, pubkey := req.pubkey })
    ∧ (∀ (S : SigScheme) (req : VerifyMessageRequest),
      pubkeyFromStr req.pubkey = none ∨ base64Decode req.signature = none →
      (verify_message S req).isFailure = true) := by
  constructor
  · intro S req pk sig hmsg hpk hsig hlen hv
    have hsne : req.signature ≠ "" := by
      intro h
      rw [h, base64Decode_empty] at hsig
      have : sig = [] := by simpa using hsig.symm
      rw [this] at hlen
      simp at hlen
    have hpne : req.pubkey ≠ "" := by
      intro h
      rw [h, pubkeyFromStr_empty] at hpk
      exact Option.noConfusion hpk
    simp [verify_message, hmsg, hsne, hpne, hpk, hsig, hlen, hv]
  · intro S req h
    by_cases hm : req.message = "" ∨ req.signature = "" ∨ req.pubkey = ""
    · simp [verify_message, hm, HResult.isFailure]
    · rcases hp : pubkeyFromStr req.pubkey with _ | pk
        <;> rcases hd : base64Decode req.signature with _ | bs
        <;> simp [verify_message, hm, hp, hd, HResult.isFailure]
      rcases h with h | h
      · exact Option.noConfusion (hp ▸ h)
      · exact Option.noConfusion (hd ▸ h)

/-- C3 amended-claim witness: a parsed-but-wrong signature yields
`valid:false` in a success envelope; an undecodable signature yields an
error envelope. -/
theorem c3_verify_distinguishes_failure_modes_witness :
    verify_message dummyScheme
      { message := "hi", signature := base64Encode (List.replicate 64 1),
        pubkey := "11111111111111111111111111111111" }
      = .success
        { valid := false, message := "hi",
          pubkey := "11111111111111111111111111111111" }
    ∧ (verify_message dummyScheme
        { message := "hi", signature := "!",
          pubkey := "11111111111111111111111111111111" }).isFailure = true :=
  ⟨c3_verify_distinguishes_failure_modes.1 dummyScheme _ (List.replicate 32 0)
      (List.replicate 64 1) (by decide) (by decide) (by decide) (by decide)
      (by decide),
    c3_verify_distinguishes_failure_modes.2 dummyScheme _ (Or.inr (by decide))⟩

/-- C4: sign/verify round-trip.  First conjunct: at the engine level,
for every keypair seed and every message byte string (including `[]`),
verifying the signature produced over the same bytes under the derived
public key yields true (this is the contract the spec assigns to the
external engine, spec-modelled).  Second conjunct: the same round trip
through the actual handlers — generate a keypair, sign a (nonempty)
message with its secret via `sign_message`, verify the returned
signature and public key via `verify_message` — returns the success
envelope with `valid := true`. -/
theorem c4_sign_verify_roundtrip :
    (∀ (S : SigScheme) (seed msg : List Nat),
      S.verify (S.derivePub seed) msg (S.sign seed (S.derivePub seed) msg) = true)
    ∧ (∀ (S : SigScheme) (seed : List Nat) (msg : String),
      msg ≠ "" → seed.length = 32 → (∀ x ∈ seed, x < 256) →
      ∃ (kp : KeypairResponse) (sr : SignMessageResponse),
        generate_keypair seed (S.derivePub seed) = .success kp
        ∧ sign_message S { message := msg, secret := kp.secret } = .success sr
        ∧ verify_message S
            { message := msg, signature := sr.signature, pubkey := sr.public_key }
          = .success
            { valid := true, message := msg, pubkey := sr.public_key }) := by
  constructor
  · intro S seed msg
    exact S.verify_sign seed msg
  · intro S seed msg hmsg hlen hbytes
    set pub := S.derivePub seed with hpub
    have hpublen : pub.length = 32 := S.derivePub_length seed
    have hpublt : ∀ x ∈ pub, x < 256 := S.derivePub_lt seed
    have hkb : ∀ x ∈ seed ++ pub, x < 256 := by
      intro x hx
      rcases List.mem_append.mp hx with h | h
      · exact hbytes x h
      · exact hpublt x h
    have htotlen : (seed ++ pub).length = 64 := by
      simp [hlen, hpublen]
    have hdec : base58Decode (base58Encode (seed ++ pub)) = some (seed ++ pub) :=
      base58Decode_base58Encode _ hkb
    have hsecne : base58Encode (seed ++ pub) ≠ "" := by
      apply base58Encode_ne_empty _ hkb
      intro hnil
      rw [hnil] at htotlen
      simp at htotlen
    have hdrop : (seed ++ pub).drop 32 = pub := by
      rw [← hlen]
      exact List.drop_left seed pub
    have htake : (seed ++ pub).take 32 = seed := by
      rw [← hlen]
      exact List.take_left seed pub
    have hvalid : S.isValidPub pub = true := S.derivePub_valid seed
    have hkfb : keypairFromBytes S (seed ++ pub) = some (seed, pub) := by
      simp [keypairFromBytes, htotlen, hdrop, htake, hvalid]
    have hsm : sign_message S { message := msg, secret := base58Encode (seed ++ pub) }
        = .success
          { signature := base64Encode (S.sign seed pub (strBytes msg)),
            public_key := base58Encode pub, message := msg } := by
      simp [sign_message, hmsg, hsecne, hdec, hkfb]
    set sig := S.sign seed pub (strBytes msg) with hsigdef
    have hsiglt : ∀ x ∈ sig, x < 256 := S.sign_lt seed pub (strBytes msg)
    have hsiglen : sig.length = 64 := S.sign_length seed pub (strBytes msg)
    have hsigdec : base64Decode (base64Encode sig) = some sig :=
      base64Decode_base64Encode _ hsiglt
    have hsigne : base64Encode sig ≠ "" := by
      apply base64Encode_ne_empty _ hsiglt
      intro hnil
      rw [hnil] at hsiglen
      simp at hsiglen
    have hpk : pubkeyFromStr (base58Encode pub) = some pub :=
      pubkeyFromStr_base58Encode pub hpublen hpublt
    have hpkne : base58Encode pub ≠ "" := by
      apply base58Encode_ne_empty _ hpublt
      intro hnil
      rw [hnil] at hpublen
      simp at hpublen
    have hver : S.verify pub (strBytes msg) sig = true := by
      rw [hpub, hsigdef]
      exact S.verify_sign seed (strBytes msg)
    refine ⟨_, _, rfl, hsm, ?_⟩
    simp [verify_message, hmsg, hsigne, hpkne, hpk, hsigdec, hsiglen, hver]

/-- C4 witness at a concrete scheme, seed and message. -/
theorem c4_sign_verify_roundtrip_witness :
    ∃ (kp : KeypairResponse) (sr : SignMessageResponse),
      generate_keypair (List.replicate 32 0)
          (dummyScheme.derivePub (List.replicate 32 0)) = .success kp
      ∧ sign_message dummyScheme { message := "hi", secret := kp.secret }
          = .success sr
      ∧ verify_message dummyScheme
          { message := "hi", signature := sr.signature, pubkey := sr.public_key }
        = .success { valid := true, message := "hi", pubkey := sr.public_key } :=
  c4_sign_verify_roundtrip.2 dummyScheme (List.replicate 32 0) "hi"
    (by decide) (by decide) (by decide)

/-- C5: `/send/sol` with valid keys rejects `lamports = 0` with an error
envelope; with any positive lamports it returns the success envelope and
the built instruction has exactly the two accounts
`[from (signer, writable), to (writable, non-signer)]` in that order. -/
theorem c5_send_sol_zero_and_accounts
    (req : SendSolRequest) (f t : List Nat)
    (hf : pubkeyFromStr req.fromKey = some f)
    (ht : pubkeyFromStr req.toKey = some t) :
    (req.lamports = 0 → (send_sol req).isFailure = true)
    ∧ (0 < req.lamports →
      send_sol req = .success
        { program_id := base58Encode systemProgramId,
          accounts := [base58Encode f, base58Encode t],
          instruction_data := base64Encode (leBytes 4 2 ++ leBytes 8 req.lamports) }
      ∧ (system_transfer f t req.lamports).accounts
          = [{ pubkey := f, is_signer := true, is_writable := true },
             { pubkey := t, is_signer := false, is_writable := true }]) := by
  constructor
  · intro h0
    simp [send_sol, hf, ht, h0, HResult.isFailure]
  · intro hpos
    refine ⟨?_, rfl⟩
    have hne : req.lamports ≠ 0 := by omega
    simp [send_sol, hf, ht, hne, system_transfer]

/-- C5 witness at concrete keys, lamports 0 and 1. -/
theorem c5_send_sol_zero_and_accounts_witness :
    (send_sol
      { fromKey := "11111111111111111111111111111111",
        toKey := "SysvarRent111111111111111111111111111111111",
        lamports := 0 }).isFailure = true
    ∧ send_sol
        { fromKey := "11111111111111111111111111111111",
          toKey := "SysvarRent111111111111111111111111111111111",
          lamports := 1 }
      = .success
        { program_id := base58Encode systemProgramId,
          accounts := [base58Encode (List.replicate 32 0), base58Encode sysvarRentId],
          instruction_data := base64Encode (leBytes 4 2 ++ leBytes 8 1) }
    ∧ (system_transfer (List.replicate 32 0) sysvarRentId 1).accounts
        = [{ pubkey := List.replicate 32 0, is_signer := true, is_writable := true },
           { pubkey := sysvarRentId, is_signer := false, is_writable := true }] :=
  ⟨(c5_send_sol_zero_and_accounts _ (List.replicate 32 0) sysvarRentId
      (by decide) (by decide)).1 rfl,
    (c5_send_sol_zero_and_accounts _ (List.replicate 32 0) sysvarRentId
      (by decide) (by decide)).2 (by decide)⟩

/-- C6: for every valid `/token/mint` request, the payload is the
discriminator byte `7` followed by the amount as eight little-endian
bytes, so the base-64 `instruction_data` decodes to a 9-byte string
whose last 8 bytes, read little-endian, equal the request's amount. -/
theorem c6_mint_payload_amount
    (req : MintTokenRequest) (m d a : List Nat)
    (hm : pubkeyFromStr req.mint = some m)
    (hd : pubkeyFromStr req.destination = some d)
    (ha : pubkeyFromStr req.authority = some a)
    (hamt : req.amount < 2 ^ 64) :
    ∃ resp : InstructionResponseMintToken,
      mint_token req = .success resp
      ∧ base64Decode resp.instruction_data = some (7 :: leBytes 8 req.amount)
      ∧ (7 :: leBytes 8 req.amount).length = 9
      ∧ ofDigitsLE 256 ((7 :: leBytes 8 req.amount).drop 1) = req.amount := by
  have hbytes : ∀ x ∈ 7 :: leBytes 8 req.amount, x < 256 := by
    intro x hx
    rcases List.mem_cons.mp hx with h | h
    · omega
    · exact leBytes_lt 8 req.amount x h
  refine ⟨{ program_id := base58Encode splTokenId,
            accounts := [{ pubkey := base58Encode m, isSigner := false,
                           isWritable := some true },
                         { pubkey := base58Encode d, isSigner := false,
                           isWritable := some true },
                         { pubkey := base58Encode a, isSigner := true,
                           isWritable := some false }],
            instruction_data := base64Encode (7 :: leBytes 8 req.amount) },
    ?_, ?_, ?_, ?_⟩
  · simp [mint_token, hm, hd, ha, mint_to]
  · exact base64Decode_base64Encode _ hbytes
  · simp [leBytes_length]
  · show ofDigitsLE 256 (leBytes 8 req.amount) = req.amount
    apply ofDigitsLE_leBytes_of_lt
    norm_num at hamt ⊢
    exact hamt

/-- C6 witness: the spec's own example, amount `1000000`. -/
theorem c6_mint_payload_amount_witness :
    ∃ resp : InstructionResponseMintToken,
      mint_token
        { mint := "11111111111111111111111111111111",
          destination := "SysvarRent111111111111111111111111111111111",
          authority := "TokenkegQfeZyiNwAJbNbGKPFXCWuBvf9Ss623VQ5DA",
          amount := 1000000 } = .success resp
      ∧ base64Decode resp.instruction_data = some (7 :: leBytes 8 1000000)
      ∧ (7 :: leBytes 8 1000000).length = 9
      ∧ ofDigitsLE 256 ((7 :: leBytes 8 1000000).drop 1) = 1000000 :=
  c6_mint_payload_amount _ (List.replicate 32 0) sysvarRentId splTokenId
    (by decide) (by decide) (by decide) (by norm_num)

/-- C7: keypair secret round-trip.  For every keypair the `/keypair`
handler can produce (32-byte seed, derived public key), base-58-decoding
the returned `secret` string, rebuilding the keypair from those 64 bytes
(`Keypair::from_bytes`) and re-deriving its public key reproduces
exactly the `pubkey` string of the same response. -/
theorem c7_keypair_secret_roundtrip
    (S : SigScheme) (seed : List Nat)
    (hlen : seed.length = 32) (hbytes : ∀ x ∈ seed, x < 256) :
    ∃ (kp : KeypairResponse) (bs : List Nat) (rekp : List Nat × List Nat),
      generate_keypair seed (S.derivePub seed) = .success kp
      ∧ base58Decode kp.secret = some bs
      ∧ keypairFromBytes S bs = some rekp
      ∧ base58Encode rekp.2 = kp.pubkey := by
  set pub := S.derivePub seed with hpub
  have hpublen : pub.length = 32 := S.derivePub_length seed
  have hpublt : ∀ x ∈ pub, x < 256 := S.derivePub_lt seed
  have hkb : ∀ x ∈ seed ++ pub, x < 256 := by
    intro x hx
    rcases List.mem_append.mp hx with h | h
    · exact hbytes x h
    · exact hpublt x h
  have htotlen : (seed ++ pub).length = 64 := by
    simp [hlen, hpublen]
  have hdec : base58Decode (base58Encode (seed ++ pub)) = some (seed ++ pub) :=
    base58Decode_base58Encode _ hkb
  have hdrop : (seed ++ pub).drop 32 = pub := by
    rw [← hlen]
    exact List.drop_left seed pub
  have htake : (seed ++ pub).take 32 = seed := by
    rw [← hlen]
    exact List.take_left seed pub
  have hvalid : S.isValidPub pub = true := S.derivePub_valid seed
  have hkfb : keypairFromBytes S (seed ++ pub) = some (seed, pub) := by
    simp [keypairFromBytes, htotlen, hdrop, htake, hvalid]
  exact ⟨_, seed ++ pub, (seed, pub), rfl, hdec, hkfb, rfl⟩

/-- C7 witness at a concrete scheme and seed. -/
theorem c7_keypair_secret_roundtrip_witness :
    ∃ (kp : KeypairResponse) (bs : List Nat) (rekp : List Nat × List Nat),
      generate_keypair (List.replicate 32 0)
          (dummyScheme.derivePub (List.replicate 32 0)) = .success kp
      ∧ base58Decode kp.secret = some bs
      ∧ keypairFromBytes dummyScheme bs = some rekp
      ∧ base58Encode rekp.2 = kp.pubkey :=
  c7_keypair_secret_roundtrip dummyScheme (List.replicate 32 0)
    (by decide) (by decide)

/-- C8: the `/send/token` handler passes the parsed `destination` field
as both the source and the destination token account of the transfer
builder, so the built instruction's first two accounts carry equal
pubkeys, and the serialized response repeats the same pubkey string in
positions 0 and 1. -/
theorem c8_send_token_source_equals_destination
    (req : SendTokenRequest) (d m o : List Nat)
    (hd : pubkeyFromStr req.destination = some d)
    (hm : pubkeyFromStr req.mint = some m)
    (ho : pubkeyFromStr req.owner = some o)
    (hnz : req.amount ≠ 0) :
    (∃ ix : Instruction,
      spl_transfer splTokenId d d o req.amount = .ok ix
      ∧ ix.accounts.map AccountMeta.pubkey = [d, d, o])
    ∧ ∃ resp : InstructionResponseSendToken,
      send_token req = .success resp
      ∧ resp.accounts.map AccountMetaCamel.pubkey
          = [base58Encode d, base58Encode d, base58Encode o] := by
  constructor
  · refine ⟨{ program_id := splTokenId,
              accounts := [{ pubkey := d, is_signer := false, is_writable := true },
                           { pubkey := d, is_signer := false, is_writable := true },
                           { pubkey := o, is_signer := true, is_writable := false }],
              data := 3 :: leBytes 8 req.amount }, ?_, rfl⟩
    simp [spl_transfer]
  · refine ⟨{ program_id := base58Encode splTokenId,
              accounts := [{ pubkey := base58Encode d, isSigner := false,
                             isWritable := none },
                           { pubkey := base58Encode d, isSigner := false,
                             isWritable := none },
                           { pubkey := base58Encode o, isSigner := true,
                             isWritable := none }],
              instruction_data := base64Encode (3 :: leBytes 8 req.amount) },
      ?_, rfl⟩
    simp [send_token, hd, hm, ho, hnz, spl_transfer]

/-- C8 witness at a concrete request. -/
theorem c8_send_token_source_equals_destination_witness :
    (∃ ix : Instruction,
      spl_transfer splTokenId (List.replicate 32 0) (List.replicate 32 0)
          sysvarRentId 5 = .ok ix
      ∧ ix.accounts.map AccountMeta.pubkey
          = [List.replicate 32 0, List.replicate 32 0, sysvarRentId])
    ∧ ∃ resp : InstructionResponseSendToken,
      send_token
        { destination := "11111111111111111111111111111111",
          mint := "TokenkegQfeZyiNwAJbNbGKPFXCWuBvf9Ss623VQ5DA",
          owner := "SysvarRent111111111111111111111111111111111",
          amount := 5 } = .success resp
      ∧ resp.accounts.map AccountMetaCamel.pubkey
          = [base58Encode (List.replicate 32 0), base58Encode (List.replicate 32 0),
             base58Encode sysvarRentId] :=
  c8_send_token_source_equals_destination
    { destination := "11111111111111111111111111111111",
      mint := "TokenkegQfeZyiNwAJbNbGKPFXCWuBvf9Ss623VQ5DA",
      owner := "SysvarRent111111111111111111111111111111111",
      amount := 5 }
    (List.replicate 32 0) splTokenId sysvarRentId
    (by decide) (by decide) (by decide) (by decide)

/-- C9: for every request in which some public-key identifier field
fails to parse (wrong alphabet, wrong decoded length, or empty — exactly
the strings on which `Pubkey::from_str` fails), each endpoint accepting
that field returns an error envelope and never a success envelope, so
invalid identifiers never reach an instruction builder. -/
theorem c9_malformed_identifiers_rejected
    (S : SigScheme) (r1 : CreateTokenRequest) (r2 : MintTokenRequest)
    (r3 : SendSolRequest) (r4 : SendTokenRequest) (r5 : VerifyMessageRequest) :
    ((pubkeyFromStr r1.mintAuthority = none ∨ pubkeyFromStr r1.mint = none) →
      (create_token r1).isFailure = true)
    ∧ ((pubkeyFromStr r2.mint = none ∨ pubkeyFromStr r2.destination = none
        ∨ pubkeyFromStr r2.authority = none) →
      (mint_token r2).isFailure = true)
    ∧ ((pubkeyFromStr r3.fromKey = none ∨ pubkeyFromStr r3.toKey = none) →
      (send_sol r3).isFailure = true)
    ∧ ((pubkeyFromStr r4.destination = none ∨ pubkeyFromStr r4.mint = none
        ∨ pubkeyFromStr r4.owner = none) →
      (send_token r4).isFailure = true)
    ∧ (pubkeyFromStr r5.pubkey = none →
      (verify_message S r5).isFailure = true) := by
  refine ⟨?_, ?_, ?_, ?_, ?_⟩
  · intro h
    rcases h1 : pubkeyFromStr r1.mintAuthority with _ | a
      <;> rcases h2 : pubkeyFromStr r1.mint with _ | b
      <;> simp [create_token, h1, h2, HResult.isFailure]
    rcases h with h | h
    · exact Option.noConfusion (h1 ▸ h)
    · exact Option.noConfusion (h2 ▸ h)
  · intro h
    rcases h1 : pubkeyFromStr r2.mint with _ | a
      <;> rcases h2 : pubkeyFromStr r2.destination with _ | b
      <;> rcases h3 : pubkeyFromStr r2.authority with _ | c
      <;> simp [mint_token, h1, h2, h3, HResult.isFailure, mint_to]
    rcases h with h | h | h
    · exact Option.noConfusion (h1 ▸ h)
    · exact Option.noConfusion (h2 ▸ h)
    · exact Option.noConfusion (h3 ▸ h)
  · intro h
    rcases h1 : pubkeyFromStr r3.fromKey with _ | a
      <;> rcases h2 : pubkeyFromStr r3.toKey with _ | b
      <;> simp [send_sol, h1, h2, HResult.isFailure]
    · rcases h with h | h
      · exact Option.noConfusion (h1 ▸ h)
      · exact Option.noConfusion (h2 ▸ h)
  · intro h
    rcases h1 : pubkeyFromStr r4.destination with _ | a
      <;> rcases h2 : pubkeyFromStr r4.mint with _ | b
      <;> rcases h3 : pubkeyFromStr r4.owner with _ | c
      <;> simp [send_token, h1, h2, h3, HResult.isFailure, spl_transfer]
    rcases h with h | h | h
    · exact Option.noConfusion (h1 ▸ h)
    · exact Option.noConfusion (h2 ▸ h)
    · exact Option.noConfusion (h3 ▸ h)
  · intro h
    by_cases hm : r5.message = "" ∨ r5.signature = "" ∨ r5.pubkey = ""
    · simp [verify_message, hm, HResult.isFailure]
    · rcases hd : base64Decode r5.signature with _ | bs
        <;> simp [verify_message, hm, h, hd, HResult.isFailure]

/-- C9 witness: one malformed identifier per endpoint — wrong alphabet
(`"0"`), wrong length (`"abc"`), and empty (`""`). -/
theorem c9_malformed_identifiers_rejected_witness :
    (create_token
      { mintAuthority := "0",
        mint := "11111111111111111111111111111111",
        decimals := 6 }).isFailure = true
    ∧ (mint_token
      { mint := "abc",
        destination := "11111111111111111111111111111111",
        authority := "11111111111111111111111111111111",
        amount := 1 }).isFailure = true
    ∧ (send_sol
      { fromKey := "",
        toKey := "11111111111111111111111111111111",
        lamports := 1 }).isFailure = true
    ∧ (send_token
      { destination := "not-base58!",
        mint := "11111111111111111111111111111111",
        owner := "11111111111111111111111111111111",
        amount := 1 }).isFailure = true
    ∧ (verify_message dummyScheme
      { message := "hi", signature := "AAAA",
        pubkey := "abc" }).isFailure = true := by
  have h := c9_malformed_identifiers_rejected dummyScheme
    { mintAuthority := "0", mint := "11111111111111111111111111111111",
      decimals := 6 }
    { mint := "abc", destination := "11111111111111111111111111111111",
      authority := "11111111111111111111111111111111", amount := 1 }
    { fromKey := "", toKey := "11111111111111111111111111111111", lamports := 1 }
    { destination := "not-base58!", mint := "11111111111111111111111111111111",
      owner := "11111111111111111111111111111111", amount := 1 }
    { message := "hi", signature := "AAAA", pubkey := "abc" }
  exact ⟨h.1 (Or.inl (by decide)), h.2.1 (Or.inl (by decide)),
    h.2.2.1 (Or.inl (by decide)), h.2.2.2.1 (Or.inl (by decide)),
    h.2.2.2.2 (by decide)⟩

/-- C10: the `/token/create` accounts payload is keyed by pubkey string,
so when the mint key equals the rent-sysvar key the two account metas
collapse into one entry carrying the flags of the later (rent,
non-writable) account. -/
theorem c10_create_token_accounts_collapse :
    create_token
      { mintAuthority := "11111111111111111111111111111111",
        mint := "SysvarRent111111111111111111111111111111111",
        decimals := 6 }
      = .success
        { program_id := base58Encode splTokenId,
          accounts := [("SysvarRent111111111111111111111111111111111",
            { pubkey := "SysvarRent111111111111111111111111111111111",
              isSigner := false, isWritable := false })],
          instruction_data :=
            base64Encode (0 :: 6 :: (List.replicate 32 0 ++ [0])) } := by
  decide
